import Mathlib

/-!
Shallow embedding of the pysymnet protocol/connection engine
(src/pysymnet/protocol.py, connection.py, tasks.py) and proofs about it.

Conventions:
* Python `str` lines from the wire are modelled as `List Char`.
* Command strings built by the connection layer are modelled as `String`.
* Python exceptions are modelled by the `PyErr` error type of an `Except`.
* Machine integers are `Int` (Python ints are unbounded, no overflow).
-/

namespace PySymNet

/-- Python exception kinds raised by the embedded code paths. -/
inductive PyErr where
  | indexError
  | attributeError
  | valueError
  | typeError
  | symNetError
deriving DecidableEq, Repr

/-- Accumulate decimal digits; `none` as soon as a non-digit appears.
Models the digit loop of Python `int(...)` on an already sign-stripped string. -/
def natDigitsAux : Nat → List Char → Option Nat
  | acc, [] => some acc
  | acc, c :: cs =>
    if c.isDigit then natDigitsAux (acc * 10 + (c.toNat - 48)) cs else none

/-- `int(...)` on a nonempty all-digit string; `none` (ValueError) otherwise. -/
def natDigits : List Char → Option Nat
  | [] => none
  | cs => natDigitsAux 0 cs

/-- Python `int(s)` restricted to the numerals this protocol produces:
an optional sign followed by decimal digits.  `none` models ValueError. -/
def pyInt : List Char → Option Int
  | [] => none
  | '-' :: cs => (natDigits cs).map (fun n => -(n : Int))
  | '+' :: cs => (natDigits cs).map (fun n => (n : Int))
  | cs => (natDigits cs).map (fun n => (n : Int))

/-! ## tasks.py -/

/-- The five shipped `SymNetTask` subclasses (tasks.py). -/
inductive TaskKind where
  | basic
  | string
  | multiString
  | value
  | multiValue
deriving DecidableEq, Repr

/-- `expects_update_format` is a class attribute set to `False` on the base
class `SymNetTask` and never overridden by any subclass nor assigned on any
instance, so every shipped task carries `false`. -/
def expects_update_format : TaskKind → Bool
  | .basic => false
  | .string => false
  | .multiString => false
  | .value => false
  | .multiValue => false

/-- Errors a task can record in its future. -/
inductive TaskErr where
  | parseError
  | nak
deriving DecidableEq, Repr

deriving instance DecidableEq for Except

/-- State of a `SymNetMultiValueTask` (tasks.py lines 105-145).
`result` models the future: `none` while pending, `some` once resolved. -/
structure MultiValueTask where
  start_control : Int
  control_count : Int
  line_counter : Int
  values : List (Int × Int)
  result : Option (Except TaskErr (List (Int × Int)))
deriving DecidableEq, Repr

/-- Python dict assignment `d[k] = v` on an insertion-ordered assoc list. -/
def dictSet : List (Int × Int) → Int → Int → List (Int × Int)
  | [], k, v => [(k, v)]
  | (k', v') :: rest, k, v =>
    if k' = k then (k, v) :: rest else (k', v') :: dictSet rest k v

/-- `SymNetMultiValueTask.__init__(retry_limit=0, start_control=0,
control_count=1)`; retry_limit is irrelevant to line handling and omitted. -/
def mkMultiValueTask (start_control control_count : Int) : MultiValueTask :=
  { start_control := start_control
    control_count := control_count
    line_counter := 0
    values := []
    result := none }

/-- `SymNetMultiValueTask.handle_line` (tasks.py lines 129-145):
parse the line as an integer (parse failure resolves the future with the
error), compute `control = start_control + line_counter`, advance the
counter, skip the store when the value is the sentinel `-1`, otherwise
store it and resolve the future once `line_counter == control_count`. -/
def multiValueHandleLine (t : MultiValueTask) (line : List Char) : MultiValueTask :=
  match pyInt line with
  | none => { t with result := some (Except.error TaskErr.parseError) }
  | some val =>
    let control : Int := t.start_control + t.line_counter
    let t1 : MultiValueTask := { t with line_counter := t.line_counter + 1 }
    if val = -1 then t1
    else
      let t2 : MultiValueTask := { t1 with values := dictSet t1.values control val }
      if t2.line_counter = t2.control_count then
        { t2 with result := some (Except.ok t2.values) }
      else t2

/-! ## connection.py: command construction -/

/-- `get_param_block` command text: `f"GDB {start} {count}"`. -/
def get_param_blockCmd (start count : Int) : String :=
  "GDB " ++ toString start ++ " " ++ toString count

/-- The task `get_param_block` hands to `_do_task`: the source builds
`SymNetMultiValueTask()` with NO arguments (connection.py line 215),
so the task gets the defaults `start_control=0, control_count=1`;
`start` and `count` are used only in the command text. -/
def get_param_blockTask (start count : Int) : MultiValueTask :=
  let _ := start
  let _ := count
  mkMultiValueTask 0 1

/-- `get_param` command text: `f"GS {param}"`; the source performs no
`check_rcn` validation on this path (connection.py lines 188-192). -/
def get_paramCmd (param : Int) : String := "GS " ++ toString param

/-- `set_param` command text: `f"CSQ {param} {value}"`; no validation either. -/
def set_paramCmd (param value : Int) : String :=
  "CSQ " ++ toString param ++ " " ++ toString value

/-! ## protocol.py: line framer -/

/-- Python `bytes.split(b"\r")` on a chunk. -/
def splitCR : List Char → List (List Char)
  | [] => [[]]
  | c :: cs =>
    if c = '\r' then [] :: splitCR cs
    else
      match splitCR cs with
      | [] => [[c]]
      | l :: ls => (c :: l) :: ls

/-- `data_received` (protocol.py lines 146-149): emit
`data.split(b"\r")[:-1]`; the trailing fragment is discarded outright —
the protocol object keeps no inter-chunk buffer. -/
def framerEmit (chunk : List Char) : List (List Char) :=
  (splitCR chunk).dropLast

/-- Lines emitted over a sequence of chunks: each chunk is processed
independently by `data_received` (no state is carried between calls). -/
def framerRun : List (List Char) → List (List Char)
  | [] => []
  | c :: cs => framerEmit c ++ framerRun cs

/-- Join complete lines and a trailing fragment back into one wire chunk. -/
def joinCR : List (List Char) → List Char → List Char
  | [], rest => rest
  | l :: ls, rest => l ++ '\r' :: joinCR ls rest

/-! ## protocol.py: line classification -/

/-- Observable consequences of `_process_line`. -/
inductive Effect where
  | update : Int → Int → Effect
  | taskFailNak : Effect
  | taskLine : List Char → Effect
deriving DecidableEq, Repr

/-- Python `str.index(c)`: position of the first occurrence, if any. -/
def pyIndex (c : Char) : List Char → Option Nat
  | [] => none
  | x :: xs => if x = c then some 0 else (pyIndex c xs).map (· + 1)

/-- Python `str.upper()`. -/
def upperChars (l : List Char) : List Char := l.map Char.toUpper

/-- The `else` branch of `_process_line` (protocol.py lines 76-80):
with no current task both `task.error` and `task.handle_line` are attribute
accesses on `None` and raise AttributeError; with a task, `NAK` fails the
task and any other line is routed to the task's `handle_line`. -/
def processLineElse (task : Option TaskKind) (line : List Char) :
    Except PyErr (List Effect) :=
  match task with
  | none => Except.error PyErr.attributeError
  | some _ =>
    if upperChars line = ['N', 'A', 'K'] then Except.ok [Effect.taskFailNak]
    else Except.ok [Effect.taskLine line]

/-- `_process_line` (protocol.py lines 59-80).  `cb` records whether
`update_callback` is set.  Mirrors Python evaluation order: the left
conjunct is evaluated first, then `line[0]` (IndexError on an empty line),
then the sentinel comparison.  On the update path `line.index("=")` raises
ValueError when absent, both `int(...)` calls raise on non-numerals, and the
source's `if val == -1: pass` has no effect (the callback is invoked for
`-1` like any other value). -/
def processLine (cb : Bool) (task : Option TaskKind) (line : List Char) :
    Except PyErr (List Effect) :=
  let condLeft : Bool :=
    match task with
    | none => true
    | some k => ! expects_update_format k
  if condLeft then
    match line with
    | [] => Except.error PyErr.indexError
    | ch :: _ =>
      if ch = '#' then
        match pyIndex '=' line with
        | none => Except.error PyErr.valueError
        | some pos =>
          match pyInt ((line.drop 1).take (pos - 1)) with
          | none => Except.error PyErr.valueError
          | some rcn =>
            match pyInt (line.drop (pos + 1)) with
            | none => Except.error PyErr.valueError
            | some val =>
              if cb then Except.ok [Effect.update rcn val] else Except.ok []
      else processLineElse task line
  else processLineElse task line

/-- Well-formed update line `#<rcn>=<val>`: same parse as the update path
of `processLine` (sentinel head, `=` position, both integer fields). -/
def parseUpdate (line : List Char) : Option (Int × Int) :=
  match line with
  | [] => none
  | ch :: _ =>
    if ch = '#' then
      match pyIndex '=' line with
      | none => none
      | some pos =>
        match pyInt ((line.drop 1).take (pos - 1)) with
        | none => none
        | some rcn =>
          match pyInt (line.drop (pos + 1)) with
          | none => none
          | some val => some (rcn, val)
    else none

/-! ## protocol.py: task queue engine

State of one `SymNetProtocol`.  Tasks are identified by a `Nat` id so that
object identity across requeues is observable.  `sent` and `completed` are
observation logs: `sent` records transport writes (`self._write(msg + "\r")`)
and `completed` records the order in which `_task_done` fires. -/

structure Engine where
  queue : List (String × Nat)
  current : Option (String × Nat)
  currentDone : Bool
  sent : List String
  completed : List Nat
deriving DecidableEq, Repr

/-- A fresh `SymNetProtocol.__init__`: empty deque, no current task. -/
def idleEngine : Engine :=
  { queue := [], current := none, currentDone := false, sent := [], completed := [] }

/-- `_try_process_tasks` (protocol.py lines 82-101): return unless no task is
in flight; pop the queue head (IndexError on empty is swallowed), make it
current, and write `msg + "\r"` to the transport. -/
def tryProcess (e : Engine) : Engine :=
  match e.current with
  | some _ => e
  | none =>
    match e.queue with
    | [] => e
    | t :: ts =>
      { e with
        queue := ts
        current := some t
        currentDone := false
        sent := e.sent ++ [t.1 ++ "\r"] }

/-- `queue_task` (protocol.py lines 115-121): append at the tail, then try
to process. -/
def queueTask (msg : String) (id : Nat) (e : Engine) : Engine :=
  tryProcess { e with queue := e.queue ++ [(msg, id)] }

/-- `queue_task_immediate` (protocol.py lines 123-129): prepend at the head,
then try to process. -/
def queueTaskImmediate (msg : String) (id : Nat) (e : Engine) : Engine :=
  tryProcess { e with queue := (msg, id) :: e.queue }

/-- `_task_done` (protocol.py lines 103-113): fires once the current task's
future is terminal; clears the current task and advances the queue. -/
def taskDone (e : Engine) : Engine :=
  match e.current with
  | none => e
  | some t =>
    tryProcess { e with current := none, completed := e.completed ++ [t.2] }

/-- All pairs the engine still owes a run: the in-flight pair then the queue. -/
def pendingPairs (e : Engine) : List (String × Nat) :=
  e.current.toList ++ e.queue

/-- Ids of `pendingPairs`. -/
def pendingIds (e : Engine) : List Nat :=
  (pendingPairs e).map Prod.snd

/-- Drive `taskDone` until no task is in flight, with explicit fuel. -/
def runAll : Nat → Engine → Engine
  | 0, e => e
  | n + 1, e =>
    match e.current with
    | none => e
    | some _ => runAll n (taskDone e)

/-- Run every pending task to completion. -/
def runToEnd (e : Engine) : Engine :=
  runAll (pendingPairs e).length e

/-- Queue a list of (command, id) pairs via `queue_task`, in order. -/
def enqueueAll (ps : List (String × Nat)) (e : Engine) : Engine :=
  ps.foldl (fun acc p => queueTask p.1 p.2 acc) e

/-- `get_queue` (protocol.py lines 131-144): all queued pairs, with the
in-flight pair prepended when its future is not yet terminal. -/
def getQueue (e : Engine) : List (String × Nat) :=
  match e.current with
  | some c => if e.currentDone then e.queue else c :: e.queue
  | none => e.queue

/-- Reconnect hand-off (connection.py lines 123-128): each captured
(command, task) pair — the very same task object — is requeued via
`protocol.queue_task` on the fresh protocol, in order. -/
def requeueAll (ps : List (String × Nat)) : Engine :=
  enqueueAll ps idleEngine

/-- First attempt of `_do_task` (connection.py lines 163-176): `ctr = 0`,
so the command is submitted with `queue_task` (not immediate). -/
def do_taskFirstAttempt (msg : String) (id : Nat) (e : Engine) : Engine :=
  queueTask msg id e

/-- Engine invariant: `_try_process_tasks` runs after every mutation, so an
idle engine (no current task) always has an empty queue. -/
def WF (e : Engine) : Prop :=
  e.current = none → e.queue = []

/-! ## connection.py: subscriptions -/

/-- `self._subscriptions`: parameter → set of callbacks, modelled as an
insertion-ordered assoc list of callback ids. -/
abbrev SubTable := List (Int × List Nat)

/-- Python dict lookup on the subscription table. -/
def subLookup : SubTable → Int → Option (List Nat)
  | [], _ => none
  | (k, v) :: rest, key => if k = key then some v else subLookup rest key

/-- `subscribe` body (connection.py lines 304-307): create `{callback}` or
add to the existing set. -/
def addSub : SubTable → Int → Nat → SubTable
  | [], key, cb => [(key, [cb])]
  | (k, v) :: rest, key, cb =>
    if k = key then (k, if cb ∈ v then v else v ++ [cb]) :: rest
    else (k, v) :: addSub rest key cb

/-- Python `del table[key]`. -/
def delKey : SubTable → Int → SubTable
  | [], _ => []
  | (k, v) :: rest, key => if k = key then rest else (k, v) :: delKey rest key

/-- Replace the callback set stored under a key. -/
def setKey : SubTable → Int → List Nat → SubTable
  | [], key, v => [(key, v)]
  | (k, w) :: rest, key, v =>
    if k = key then (key, v) :: rest else (k, w) :: setKey rest key v

/-- `check_rcn` (connection.py lines 35-38): raise SymNetException when the
RCN is outside [1, 10000].  On the `None` selector the comparison
`param < 1` itself raises TypeError (NoneType is not orderable in Python),
before the wildcard substitution `param = -1` is ever reached. -/
def check_rcn : Option Int → Except PyErr Unit
  | none => Except.error PyErr.typeError
  | some p =>
    if p < 1 ∨ p > 10000 then Except.error PyErr.symNetError else Except.ok ()

/-- The per-parameter loop of `subscribe` (connection.py lines 298-307):
validate, substitute the wildcard sentinel `-1`, record the callback.
An error carries the table as mutated so far (Python raises in place). -/
def subscribeLoop (cb : Nat) : List (Option Int) → SubTable →
    Except (PyErr × SubTable) SubTable
  | [], tbl => Except.ok tbl
  | p :: ps, tbl =>
    match check_rcn p with
    | Except.error e => Except.error (e, tbl)
    | Except.ok _ =>
      let key : Int := match p with | none => -1 | some v => v
      subscribeLoop cb ps (addSub tbl key cb)

/-- The per-parameter loop of `unsubscribe` (connection.py lines 322-338):
validate, substitute, discard the callback, delete emptied entries and
collect them for `PUD` commands. -/
def unsubscribeLoop (cb : Nat) : List (Option Int) → SubTable → List Int →
    Except (PyErr × SubTable) (SubTable × List Int)
  | [], tbl, removed => Except.ok (tbl, removed)
  | p :: ps, tbl, removed =>
    match check_rcn p with
    | Except.error e => Except.error (e, tbl)
    | Except.ok _ =>
      let key : Int := match p with | none => -1 | some v => v
      match subLookup tbl key with
      | none => unsubscribeLoop cb ps tbl removed
      | some subs =>
        let subs2 := subs.filter (fun c => c ≠ cb)
        if subs2.isEmpty then
          unsubscribeLoop cb ps (delKey tbl key) (removed ++ [key])
        else
          unsubscribeLoop cb ps (setKey tbl key subs2) removed

/-! ## connection.py: range coalescing (`_update_subscriptions`) -/

/-- Insert into a sorted list; used to model Python `sorted(...)`. -/
def insertSorted (x : Int) : List Int → List Int
  | [] => [x]
  | y :: ys => if x ≤ y then x :: y :: ys else y :: insertSorted x ys

/-- Python `sorted(...)` over the table's keys. -/
def sortKeys (l : List Int) : List Int :=
  l.foldr insertSorted []

/-- The groupby key `lambda t: t[1] - t[0]` over `enumerate(params)`. -/
def tkey (t : Int × Int) : Int := t.2 - t.1

/-- `itertools.groupby(..., key=tkey)`: maximal runs of adjacent elements
with equal key. -/
def groupByTKey : List (Int × Int) → List (List (Int × Int))
  | [] => []
  | t :: ts =>
    match groupByTKey ts with
    | [] => [[t]]
    | [] :: gs => [t] :: [] :: gs
    | (u :: g) :: gs =>
      if tkey t = tkey u then (t :: u :: g) :: gs else [t] :: (u :: g) :: gs

/-- `(group[0][1], group[-1][1])`; groups produced by `groupByTKey` are
never empty, so the defaults are never consulted. -/
def rangeOfGroup (g : List (Int × Int)) : Int × Int :=
  ((g.head?.map Prod.snd).getD 0, (g.getLast?.map Prod.snd).getD 0)

/-- The `ranges` list built in `_update_subscriptions`
(connection.py lines 363-371). -/
def pyRanges (l : List (Int × Int)) : List (Int × Int) :=
  (groupByTKey l).map rangeOfGroup

/-- Python `enumerate` with an explicit starting index. -/
def enumFrom : Int → List Int → List (Int × Int)
  | _, [] => []
  | i, x :: xs => (i, x) :: enumFrom (i + 1) xs

/-- Ranges computed from a key list exactly as the source does:
`groupby(enumerate(params), key=lambda t: t[1] - t[0])`. -/
def rangesOfKeys (keys : List Int) : List (Int × Int) :=
  pyRanges (enumFrom 0 keys)

/-- Render one range-subscribe command (connection.py lines 374-384):
a length-1 run is rendered without a range suffix. -/
def renderRange : Int × Int → String
  | (s, e) => if s = e then "PUE " ++ toString s else "PUE " ++ toString s ++ " " ++ toString e

/-- All commands issued by `_update_subscriptions` (connection.py
lines 342-390): one `PUD` per deleted parameter, then one `PUE` per run of
the sorted surviving key set. -/
def updateSubscriptionsCmds (tbl : SubTable) (deleted : List Int) : List String :=
  deleted.map (fun d => "PUD " ++ toString d)
    ++ (rangesOfKeys (sortKeys (tbl.map Prod.fst))).map renderRange

/-- `subscribe` (connection.py lines 287-309): run the loop, then issue
the reconciliation commands (no deletions on the subscribe path). -/
def subscribeCall (cb : Nat) (params : List (Option Int)) (tbl : SubTable) :
    Except (PyErr × SubTable) (SubTable × List String) :=
  match subscribeLoop cb params tbl with
  | Except.error e => Except.error e
  | Except.ok tbl2 => Except.ok (tbl2, updateSubscriptionsCmds tbl2 [])

/-- `unsubscribe` (connection.py lines 311-340): run the loop, then issue
the reconciliation commands with the emptied parameters as deletions. -/
def unsubscribeCall (cb : Nat) (params : List (Option Int)) (tbl : SubTable) :
    Except (PyErr × SubTable) (SubTable × List String) :=
  match unsubscribeLoop cb params tbl [] with
  | Except.error e => Except.error e
  | Except.ok (tbl2, removed) => Except.ok (tbl2, updateSubscriptionsCmds tbl2 removed)

/-- Modelled from the claim's wording (for the C7 refinement): the maximal
consecutive-integer runs of a sorted key list; a key `x` extends the
following run exactly when that run starts at `x + 1`. -/
def runsFromClaim : List Int → List (Int × Int)
  | [] => []
  | x :: xs =>
    match runsFromClaim xs with
    | [] => [(x, x)]
    | (s, e) :: rs =>
      if s = x + 1 then (x, e) :: rs else (x, x) :: (s, e) :: rs

/-! ## connection.py: publish -/

/-- The wildcard half of `_get_subscribers` (connection.py lines 392-397). -/
def wildcardOf (tbl : SubTable) : List Nat :=
  (subLookup tbl (-1)).getD []

/-- `publish` (connection.py lines 402-409): only when `param` has an entry
does it iterate `_get_subscribers` (wildcard callbacks first, then the
parameter's own); each callback runs inside `try/except`, so a raising
callback is logged and delivery continues.  `beh` gives each callback's
behaviour; the result records every invocation with the exception it
raised, if any. -/
def publishRun (beh : Nat → Int → Int → Except String Unit)
    (tbl : SubTable) (param value : Int) : List (Nat × Option String) :=
  match subLookup tbl param with
  | none => []
  | some subs =>
    (wildcardOf tbl ++ subs).map (fun c =>
      (c, match beh c param value with
          | Except.ok _ => none
          | Except.error msg => some msg))

/-! ## Helper lemmas -/

theorem expects_false (k : TaskKind) : expects_update_format k = false := by
  cases k <;> rfl

theorem splitCR_no_cr (l : List Char) (h : '\r' ∉ l) : splitCR l = [l] := by
  induction l with
  | nil => rfl
  | cons c cs ih =>
    have hc : c ≠ '\r' := fun e => h (e ▸ List.mem_cons_self c cs)
    have hcs : '\r' ∉ cs := fun hm => h (List.mem_cons_of_mem _ hm)
    simp [splitCR, hc, ih hcs]

theorem splitCR_append (l r : List Char) (h : '\r' ∉ l) :
    splitCR (l ++ '\r' :: r) = l :: splitCR r := by
  induction l with
  | nil => simp [splitCR]
  | cons c cs ih =>
    have hc : c ≠ '\r' := fun e => h (e ▸ List.mem_cons_self c cs)
    have hcs : '\r' ∉ cs := fun hm => h (List.mem_cons_of_mem _ hm)
    simp [splitCR, hc, ih hcs]

theorem splitCR_joinCR (ls : List (List Char)) (rest : List Char)
    (h : ∀ l ∈ ls, '\r' ∉ l) (hr : '\r' ∉ rest) :
    splitCR (joinCR ls rest) = ls ++ [rest] := by
  induction ls with
  | nil => simpa [joinCR] using splitCR_no_cr rest hr
  | cons l ls ih =>
    have h1 : '\r' ∉ l := h l (List.mem_cons_self _ _)
    have h2 : ∀ x ∈ ls, '\r' ∉ x := fun x hx => h x (List.mem_cons_of_mem _ hx)
    simp [joinCR, splitCR_append l _ h1, ih h2]

theorem map_fst_pair (l : List Nat) (f : Nat → Option String) :
    (l.map (fun c => (c, f c))).map Prod.fst = l := by
  induction l with
  | nil => rfl
  | cons x xs ih => simp [ih]

/-! ## Claim theorems -/

/-- C1: the claim says `get_param_block(start, count)` issues
`GDB <start> <count>` and its task consumes exactly `count` lines, mapping
the i-th line to `start + i`.  The command text is right, but the source
constructs `SymNetMultiValueTask()` with no arguments, so the task keeps
the defaults `start_control=0, control_count=1`: on the failing input
`start=10, count=3` with reply lines `"7", "-1", "9"` it reaches its
terminal state after the FIRST line with the mapping `{0: 7}` instead of
terminating after the third line with `{10: 7, 12: 9}`.  A task built with
the intended arguments (`mkMultiValueTask 10 3`) does satisfy the claim,
which shows the constructor call in `get_param_block` is the slip. -/
theorem C1_block_get_defaults_bug :
    get_param_blockCmd 10 3 = "GDB 10 3"
    ∧ (get_param_blockTask 10 3).start_control = 0
    ∧ (get_param_blockTask 10 3).control_count = 1
    ∧ (multiValueHandleLine (get_param_blockTask 10 3) ['7']).result
        = some (Except.ok [(0, 7)])
    ∧ (multiValueHandleLine (get_param_blockTask 10 3) ['7']).result
        ≠ some (Except.ok [(10, 7), (12, 9)])
    ∧ (multiValueHandleLine (mkMultiValueTask 10 3) ['7']).result = none
    ∧ (multiValueHandleLine (multiValueHandleLine (mkMultiValueTask 10 3) ['7'])
        ['-', '1']).result = none
    ∧ (multiValueHandleLine (multiValueHandleLine
        (multiValueHandleLine (mkMultiValueTask 10 3) ['7']) ['-', '1']) ['9']).result
        = some (Except.ok [(10, 7), (12, 9)]) := by
  decide

/-- C2 counterexample: the claim says that for an out-of-range RCN (here 0)
`get_param` and `set_param` fail with a validation error before any socket
activity.  In the source neither calls `check_rcn`: submitting `get_param 0`
on an idle connection writes `GS 0\r` to the transport (and `set_param`
writes `CSQ 0 5\r`), even though the validator itself classifies 0 as out
of range. -/
theorem C2_get_set_no_validation_counterexample :
    check_rcn (some 0) = Except.error PyErr.symNetError
    ∧ (do_taskFirstAttempt (get_paramCmd 0) 1 idleEngine).sent = ["GS 0\r"]
    ∧ (do_taskFirstAttempt (set_paramCmd 0 5) 2 idleEngine).sent = ["CSQ 0 5\r"] := by
  decide

/-- C2 amended: for every RCN outside [1, 10000], `subscribe` and
`unsubscribe` fail with a validation error before any command is issued
(the table is returned unchanged and no command list is produced), while
`get_param` and `set_param` perform no validation at all: they write their
command for any integer RCN. -/
theorem C2_validation_only_on_subscribe :
    (∀ (p : Int) (tbl : SubTable) (cb : Nat), (p < 1 ∨ p > 10000) →
        subscribeCall cb [some p] tbl = Except.error (PyErr.symNetError, tbl))
    ∧ (∀ (p : Int) (tbl : SubTable) (cb : Nat), (p < 1 ∨ p > 10000) →
        unsubscribeCall cb [some p] tbl = Except.error (PyErr.symNetError, tbl))
    ∧ (∀ p : Int, (do_taskFirstAttempt (get_paramCmd p) 1 idleEngine).sent
        = ["GS " ++ toString p ++ "\r"])
    ∧ (∀ p v : Int, (do_taskFirstAttempt (set_paramCmd p v) 2 idleEngine).sent
        = ["CSQ " ++ toString p ++ " " ++ toString v ++ "\r"]) := by
  refine ⟨?_, ?_, fun p => rfl, fun p v => rfl⟩
  · intro p tbl cb h
    have hc : check_rcn (some p) = Except.error PyErr.symNetError := by
      simp only [check_rcn]
      rw [if_pos h]
    simp [subscribeCall, subscribeLoop, hc]
  · intro p tbl cb h
    have hc : check_rcn (some p) = Except.error PyErr.symNetError := by
      simp only [check_rcn]
      rw [if_pos h]
    simp [unsubscribeCall, unsubscribeLoop, hc]

/-- C2 witness. -/
theorem C2_validation_only_on_subscribe_witness :
    subscribeCall 0 [some 0] [] = Except.error (PyErr.symNetError, [])
    ∧ unsubscribeCall 0 [some 10001] [] = Except.error (PyErr.symNetError, [])
    ∧ (do_taskFirstAttempt (get_paramCmd 7) 1 idleEngine).sent
        = ["GS " ++ toString (7 : Int) ++ "\r"]
    ∧ (do_taskFirstAttempt (set_paramCmd 7 9) 2 idleEngine).sent
        = ["CSQ " ++ toString (7 : Int) ++ " " ++ toString (9 : Int) ++ "\r"] :=
  ⟨C2_validation_only_on_subscribe.1 0 [] 0 (Or.inl (by decide)),
   C2_validation_only_on_subscribe.2.1 10001 [] 0 (Or.inr (by decide)),
   C2_validation_only_on_subscribe.2.2.1 7,
   C2_validation_only_on_subscribe.2.2.2 7 9⟩

/-- C3 counterexample: the claim says a line split across two consecutive
chunks is eventually delivered intact.  Feeding the chunks `b"AB"` and
`b"C\r"` to `data_received` emits only the line `"C"`: the partial line
`"AB"` was discarded with the trailing fragment of the first chunk, and
`"ABC"` is never delivered. -/
theorem C3_split_line_lost_counterexample :
    framerRun [['A', 'B'], ['C', '\r']] = [['C']]
    ∧ ['A', 'B', 'C'] ∉ framerRun [['A', 'B'], ['C', '\r']] := by
  decide

/-- C3 amended: for every chunk, the framer emits exactly the complete
carriage-return-terminated lines contained in that chunk and discards the
trailing fragment after the last carriage return — whether that fragment is
empty or a partial line.  Chunks are processed independently (the protocol
object keeps no buffer), so a line split across chunks is never reassembled. -/
theorem C3_framer_per_chunk_no_buffering :
    (∀ (ls : List (List Char)) (rest : List Char),
        (∀ l ∈ ls, '\r' ∉ l) → '\r' ∉ rest →
        framerEmit (joinCR ls rest) = ls)
    ∧ (∀ (c : List Char) (cs : List (List Char)),
        framerRun (c :: cs) = framerEmit c ++ framerRun cs) := by
  refine ⟨?_, fun c cs => rfl⟩
  intro ls rest h hr
  simp [framerEmit, splitCR_joinCR ls rest h hr]

/-- C3 witness. -/
theorem C3_framer_per_chunk_no_buffering_witness :
    framerEmit (joinCR [['O', 'K']] ['A']) = [['O', 'K']]
    ∧ framerRun (['X'] :: [['Y', '\r']])
        = framerEmit ['X'] ++ framerRun [['Y', '\r']] :=
  ⟨C3_framer_per_chunk_no_buffering.1 [['O', 'K']] ['A'] (by decide) (by decide),
   C3_framer_per_chunk_no_buffering.2 ['X'] [['Y', '\r']]⟩

/-- C4 counterexample: the claim says wildcard callbacks are invoked even
when the published rcn has no registered callbacks of its own.  With the
table `{-1: {7}}` (wildcard callback 7 only), `publish(5, 42)` invokes
nothing: the guard `if param in self._subscriptions` fails for 5 and the
wildcard set is never consulted. -/
theorem C4_wildcard_skipped_counterexample :
    publishRun (fun _ _ _ => Except.ok ()) [(-1, [7])] 5 42 = []
    ∧ wildcardOf [(-1, [7])] = [7] := by
  decide

/-- C4 amended: `publish(rcn, value)` delivers to every wildcard callback
plus every callback registered for `rcn` — but only when `rcn` itself has an
entry in the subscription table; when it has none, no callback (wildcard
included) is invoked.  Exceptions raised by callbacks are caught per
callback, so they never prevent delivery to the remaining callbacks: the
invocation list is independent of the callbacks' behaviour. -/
theorem C4_publish_guarded_delivery :
    (∀ (beh : Nat → Int → Int → Except String Unit) (tbl : SubTable)
        (p v : Int) (subs : List Nat), subLookup tbl p = some subs →
        (publishRun beh tbl p v).map Prod.fst = wildcardOf tbl ++ subs)
    ∧ (∀ (beh : Nat → Int → Int → Except String Unit) (tbl : SubTable)
        (p v : Int), subLookup tbl p = none → publishRun beh tbl p v = []) := by
  constructor
  · intro beh tbl p v subs h
    simp only [publishRun, h]
    exact map_fst_pair (wildcardOf tbl ++ subs) _
  · intro beh tbl p v h
    simp [publishRun, h]

/-- C4 witness: with every callback raising, all of them are still invoked. -/
theorem C4_publish_guarded_delivery_witness :
    (publishRun (fun _ _ _ => Except.error "boom") [(-1, [9]), (5, [1, 2])] 5 42).map Prod.fst
      = wildcardOf [(-1, [9]), (5, [1, 2])] ++ [1, 2]
    ∧ publishRun (fun _ _ _ => Except.ok ()) [(3, [4])] 8 0 = [] :=
  ⟨C4_publish_guarded_delivery.1 (fun _ _ _ => Except.error "boom") [(-1, [9]), (5, [1, 2])]
      5 42 [1, 2] (by decide),
   C4_publish_guarded_delivery.2 (fun _ _ _ => Except.ok ()) [(3, [4])] 8 0 (by decide)⟩

/-- C8 counterexample: the claim says an unsolicited update with value -1 is
a no-op whose callback is never invoked.  Processing `#5=-1` with no task in
flight invokes the callback with `(5, -1)`: the source's `if val == -1: pass`
is dead code and does not suppress the notification. -/
theorem C8_minus_one_counterexample :
    processLine true none "#5=-1".toList = Except.ok [Effect.update 5 (-1)]
    ∧ processLine true none "#5=-1".toList ≠ Except.ok [] := by
  decide

/-- C8 amended: an update value of -1 receives no special treatment.  For
every well-formed unsolicited line `#<rcn>=<val>` processed while no task is
in flight or the in-flight task's classification flag is false (the flag is
false for every shipped task), the notification callback is invoked with
`(rcn, val)` — including when `val = -1`. -/
theorem C8_minus_one_callback_invoked (task : Option TaskKind) (line : List Char)
    (rcn val : Int) (h : parseUpdate line = some (rcn, val)) :
    processLine true task line = Except.ok [Effect.update rcn val] := by
  cases line with
  | nil => simp [parseUpdate] at h
  | cons ch rest =>
    by_cases hch : ch = '#'
    · subst hch
      simp only [parseUpdate, if_pos] at h
      split at h
      · exact absurd h (by simp)
      · rename_i pos hidx
        split at h
        · exact absurd h (by simp)
        · rename_i r hr
          split at h
          · exact absurd h (by simp)
          · rename_i v hv
            simp only [Option.some.injEq, Prod.mk.injEq] at h
            obtain ⟨h1, h2⟩ := h
            subst h1
            subst h2
            simp only [List.drop_succ_cons, List.drop_zero] at hr hv
            cases task with
            | none => simp [processLine, hidx, hr, hv]
            | some k => simp [processLine, expects_false, hidx, hr, hv]
    · simp [parseUpdate, hch] at h

/-- C8 witness. -/
theorem C8_minus_one_callback_invoked_witness :
    parseUpdate "#9=-1".toList = some (9, -1)
    ∧ processLine true (some TaskKind.basic) "#9=-1".toList
        = Except.ok [Effect.update 9 (-1)] :=
  ⟨by decide,
   C8_minus_one_callback_invoked (some TaskKind.basic) "#9=-1".toList 9 (-1) (by decide)⟩

/-- C9: `subscribe(None, cb)` and `unsubscribe(None, cb)` reach
`check_rcn(None)` before the wildcard substitution `param = -1`, and the
comparison `None < 1` raises TypeError there.  The call therefore fails
during validation with the table unchanged — no wildcard entry is recorded
and no subscribe command is issued: the wildcard subscription path is
unreachable through the public API. -/
theorem C9_wildcard_selector_rejected (tbl : SubTable) (cb : Nat) :
    subscribeCall cb [none] tbl = Except.error (PyErr.typeError, tbl)
    ∧ unsubscribeCall cb [none] tbl = Except.error (PyErr.typeError, tbl) :=
  ⟨rfl, rfl⟩

/-- C10: `_process_line` is partial at the inbound-line boundary: a
completed call implies the line was non-empty and, when it did not start
with the notification sentinel `#`, that a task was in flight; an empty
line raises IndexError (from `line[0]`), and a non-sentinel line such as
`ACK` arriving with no task in flight raises AttributeError (attribute
access on `None`) instead of being discarded. -/
theorem C10_process_line_raises :
    (∀ (cb : Bool) (task : Option TaskKind) (line : List Char)
        (effs : List Effect), processLine cb task line = Except.ok effs →
        line ≠ [] ∧ (line.head? ≠ some '#' → task ≠ none))
    ∧ (∀ (cb : Bool) (task : Option TaskKind),
        processLine cb task [] = Except.error PyErr.indexError)
    ∧ (∀ (cb : Bool) (line : List Char), line ≠ [] → line.head? ≠ some '#' →
        processLine cb none line = Except.error PyErr.attributeError) := by
  refine ⟨?_, ?_, ?_⟩
  · intro cb task line effs h
    cases task with
    | none =>
      cases line with
      | nil => simp [processLine] at h
      | cons ch rest =>
        refine ⟨by simp, ?_⟩
        intro hh
        exfalso
        have hch : ch ≠ '#' := by simpa using hh
        simp [processLine, processLineElse, hch] at h
    | some k =>
      cases line with
      | nil => simp [processLine, expects_false] at h
      | cons ch rest => exact ⟨by simp, fun _ => by simp⟩
  · intro cb task
    cases task with
    | none => rfl
    | some k => simp [processLine, expects_false]
  · intro cb line h1 h2
    cases line with
    | nil => exact absurd rfl h1
    | cons ch rest =>
      have hch : ch ≠ '#' := by simpa using h2
      simp [processLine, processLineElse, hch]

/-- C10 witness. -/
theorem C10_process_line_raises_witness :
    ("#1=2".toList ≠ []
      ∧ (("#1=2".toList).head? ≠ some '#' → (none : Option TaskKind) ≠ none))
    ∧ processLine true none [] = Except.error PyErr.indexError
    ∧ processLine true none "ACK".toList = Except.error PyErr.attributeError :=
  ⟨C10_process_line_raises.1 true none "#1=2".toList [Effect.update 1 2] (by decide),
   C10_process_line_raises.2.1 true none,
   C10_process_line_raises.2.2 true "ACK".toList (by decide) (by decide)⟩

/-! ## Engine lemmas -/

theorem wf_idle : WF idleEngine := fun _ => rfl

theorem pendingPairs_queueTask (e : Engine) (m : String) (i : Nat) (h : WF e) :
    pendingPairs (queueTask m i e) = pendingPairs e ++ [(m, i)] := by
  cases hc : e.current with
  | some c => simp [queueTask, tryProcess, pendingPairs, hc]
  | none => simp [queueTask, tryProcess, pendingPairs, hc, h hc]

theorem wf_queueTask (e : Engine) (m : String) (i : Nat) (h : WF e) :
    WF (queueTask m i e) := by
  cases hc : e.current with
  | some c => intro hcon; simp [queueTask, tryProcess, hc] at hcon
  | none => intro hcon; simp [queueTask, tryProcess, hc, h hc] at hcon

theorem completed_tryProcess (e : Engine) : (tryProcess e).completed = e.completed := by
  unfold tryProcess
  split
  · rfl
  · split <;> rfl

theorem completed_queueTask (e : Engine) (m : String) (i : Nat) :
    (queueTask m i e).completed = e.completed := by
  simp [queueTask, completed_tryProcess]

theorem obs_queueTask (e : Engine) (m : String) (i : Nat) (h : WF e) :
    (queueTask m i e).sent ++ (queueTask m i e).queue.map (fun p => p.1 ++ "\r")
      = (e.sent ++ e.queue.map (fun p => p.1 ++ "\r")) ++ [m ++ "\r"] := by
  cases hc : e.current with
  | some c => simp [queueTask, tryProcess, hc]
  | none => simp [queueTask, tryProcess, hc, h hc]

theorem enqueueAll_spec (ps : List (String × Nat)) (e : Engine) (h : WF e) :
    WF (enqueueAll ps e)
    ∧ pendingPairs (enqueueAll ps e) = pendingPairs e ++ ps
    ∧ (enqueueAll ps e).completed = e.completed
    ∧ (enqueueAll ps e).sent ++ (enqueueAll ps e).queue.map (fun p => p.1 ++ "\r")
        = (e.sent ++ e.queue.map (fun p => p.1 ++ "\r")) ++ ps.map (fun p => p.1 ++ "\r") := by
  induction ps generalizing e with
  | nil => exact ⟨h, by simp [enqueueAll], rfl, by simp [enqueueAll]⟩
  | cons p ps ih =>
    have hstep : enqueueAll (p :: ps) e = enqueueAll ps (queueTask p.1 p.2 e) := rfl
    have h1 := wf_queueTask e p.1 p.2 h
    obtain ⟨w, hp, hcomp, hobs⟩ := ih (queueTask p.1 p.2 e) h1
    rw [hstep]
    refine ⟨w, ?_, ?_, ?_⟩
    · rw [hp, pendingPairs_queueTask e p.1 p.2 h]
      simp
    · rw [hcomp, completed_queueTask]
    · rw [hobs, obs_queueTask e p.1 p.2 h]
      simp

theorem runAll_spec (n : Nat) : ∀ e : Engine, WF e → (pendingPairs e).length ≤ n →
    (runAll n e).completed = e.completed ++ pendingIds e
    ∧ (runAll n e).sent = e.sent ++ e.queue.map (fun p => p.1 ++ "\r")
    ∧ (runAll n e).current = none
    ∧ (runAll n e).queue = [] := by
  induction n with
  | zero =>
    intro e h hlen
    have hnil : pendingPairs e = [] := List.eq_nil_of_length_eq_zero (Nat.le_zero.mp hlen)
    cases hc : e.current with
    | some c => rw [pendingPairs, hc] at hnil; simp at hnil
    | none =>
      have hq : e.queue = [] := h hc
      exact ⟨by simp [runAll, pendingIds, hnil], by simp [runAll, hq], by simp [runAll, hc],
        by simp [runAll, hq]⟩
  | succ n ih =>
    intro e h hlen
    cases hc : e.current with
    | none =>
      have hq : e.queue = [] := h hc
      have hrun : runAll (n + 1) e = e := by simp [runAll, hc]
      exact ⟨by simp [hrun, pendingIds, pendingPairs, hc, hq], by simp [hrun, hq],
        by simp [hrun, hc], by simp [hrun, hq]⟩
    | some c =>
      have hrun : runAll (n + 1) e = runAll n (taskDone e) := by simp [runAll, hc]
      cases hq : e.queue with
      | nil =>
        have hdone : taskDone e =
            { e with current := none, completed := e.completed ++ [c.2] } := by
          simp [taskDone, tryProcess, hc, hq]
        have h2 : WF (taskDone e) := by rw [hdone]; intro _; simpa using hq
        have hlen2 : (pendingPairs (taskDone e)).length ≤ n := by
          simp [hdone, pendingPairs, hq]
        obtain ⟨ha, hb, hcur, hque⟩ := ih (taskDone e) h2 hlen2
        rw [hrun]
        refine ⟨?_, ?_, hcur, hque⟩
        · rw [ha]
          simp [hdone, pendingIds, pendingPairs, hc, hq]
        · rw [hb]
          simp [hdone, hq]
      | cons t ts =>
        have hdone : taskDone e =
            { e with
              current := some t
              currentDone := false
              queue := ts
              sent := e.sent ++ [t.1 ++ "\r"]
              completed := e.completed ++ [c.2] } := by
          simp [taskDone, tryProcess, hc, hq]
        have h2 : WF (taskDone e) := by rw [hdone]; intro hcon; simp at hcon
        have hlen2 : (pendingPairs (taskDone e)).length ≤ n := by
          have : (pendingPairs e).length = ts.length + 2 := by
            simp [pendingPairs, hc, hq]
          simp only [hdone, pendingPairs]
          simp only [pendingPairs, hc, hq] at hlen
          simp at hlen ⊢
          omega
        obtain ⟨ha, hb, hcur, hque⟩ := ih (taskDone e) h2 hlen2
        rw [hrun]
        refine ⟨?_, ?_, hcur, hque⟩
        · rw [ha]
          simp [hdone, pendingIds, pendingPairs, hc, hq]
        · rw [hb]
          simp [hdone, hq]

theorem pendingPairs_queueTaskImmediate (e : Engine) (m : String) (i : Nat) (h : WF e) :
    pendingPairs (queueTaskImmediate m i e) = e.current.toList ++ (m, i) :: e.queue := by
  cases hc : e.current with
  | some c => simp [queueTaskImmediate, tryProcess, pendingPairs, hc]
  | none => simp [queueTaskImmediate, tryProcess, pendingPairs, hc, h hc]

theorem wf_queueTaskImmediate (e : Engine) (m : String) (i : Nat) :
    WF (queueTaskImmediate m i e) := by
  cases hc : e.current with
  | some c => intro hcon; simp [queueTaskImmediate, tryProcess, hc] at hcon
  | none => intro hcon; simp [queueTaskImmediate, tryProcess, hc] at hcon

theorem completed_queueTaskImmediate (e : Engine) (m : String) (i : Nat) :
    (queueTaskImmediate m i e).completed = e.completed := by
  simp [queueTaskImmediate, completed_tryProcess]

/-- C5 counterexample: the claim says the captured command is redelivered
with a NEW Task.  Capturing a connection that dies with `("GS 1", task 1)`
in flight (future pending) and `("NOP", task 2)` queued, then reconnecting,
puts `("GS 1", task 1)` — the very same task object, id 1 — at the head of
the replacement engine's pending work. -/
theorem C5_same_task_requeued_counterexample :
    getQueue
      { queue := [("NOP", 2)]
        current := some ("GS 1", 1)
        currentDone := false
        sent := []
        completed := [] } = [("GS 1", 1), ("NOP", 2)]
    ∧ (pendingPairs (requeueAll [("GS 1", 1), ("NOP", 2)])).head? = some ("GS 1", 1) := by
  decide

/-- C5 amended: on connection loss `get_queue` captures every unresolved
(command, task) pair — the in-flight pair first when its future is not yet
terminal, and exactly the queued pairs when there is no in-flight task —
and reconnection requeues the captured list verbatim: the replacement
engine's pending work equals the captured list (same command text and the
SAME task object, in preserved order, nothing dropped or duplicated), with
the in-flight pair at its head. -/
theorem C5_reconnect_requeue :
    (∀ ps : List (String × Nat), pendingPairs (requeueAll ps) = ps)
    ∧ (∀ (e : Engine) (c : String × Nat), e.current = some c → e.currentDone = false →
        getQueue e = c :: e.queue)
    ∧ (∀ e : Engine, e.current = none → getQueue e = e.queue) := by
  refine ⟨?_, ?_, ?_⟩
  · intro ps
    have h := (enqueueAll_spec ps idleEngine wf_idle).2.1
    simpa [requeueAll, pendingPairs, idleEngine] using h
  · intro e c hc hd
    simp [getQueue, hc, hd]
  · intro e hc
    simp [getQueue, hc]

/-- C5 witness. -/
theorem C5_reconnect_requeue_witness :
    pendingPairs (requeueAll [("GDB 1 2", 3), ("NOP", 4)]) = [("GDB 1 2", 3), ("NOP", 4)]
    ∧ getQueue
        { queue := [("NOP", 4)]
          current := some ("GDB 1 2", 3)
          currentDone := false
          sent := []
          completed := [] } = ("GDB 1 2", 3) :: [("NOP", 4)]
    ∧ getQueue
        { queue := [("X", 5)]
          current := none
          currentDone := false
          sent := []
          completed := [] } = [("X", 5)] :=
  ⟨C5_reconnect_requeue.1 [("GDB 1 2", 3), ("NOP", 4)],
   C5_reconnect_requeue.2.1 _ ("GDB 1 2", 3) rfl rfl,
   C5_reconnect_requeue.2.2 _ rfl⟩

/-- C6: at most one task is ever in flight (the engine's current slot holds
at most one pair); queuing any sequence of tasks on an idle engine via
`queue_task` and running to completion both sends and completes them in
exactly submission (FIFO) order; and a task submitted via
`queue_task_immediate` is placed at the head of the pending work, so it
completes strictly before any task queued after it via `queue_task`. -/
theorem C6_fifo_single_in_flight :
    (∀ e : Engine, e.current.toList.length ≤ 1)
    ∧ (∀ ps : List (String × Nat),
        (runToEnd (enqueueAll ps idleEngine)).completed = ps.map Prod.snd
        ∧ (runToEnd (enqueueAll ps idleEngine)).sent = ps.map (fun p => p.1 ++ "\r"))
    ∧ (∀ (e : Engine) (m mq : String) (i iq : Nat), WF e →
        ∃ l1 l2 l3,
          (runToEnd (queueTask mq iq (queueTaskImmediate m i e))).completed
            = l1 ++ i :: l2 ++ iq :: l3) := by
  refine ⟨?_, ?_, ?_⟩
  · intro e
    cases e.current <;> simp
  · intro ps
    obtain ⟨w, hp, hcomp, hobs⟩ := enqueueAll_spec ps idleEngine wf_idle
    obtain ⟨ha, hb, _, hque⟩ :=
      runAll_spec (pendingPairs (enqueueAll ps idleEngine)).length
        (enqueueAll ps idleEngine) w le_rfl
    constructor
    · rw [runToEnd, ha, hcomp, pendingIds, hp]
      simp [pendingPairs, idleEngine]
    · rw [runToEnd, hb]
      have hsent : (enqueueAll ps idleEngine).sent
          ++ (enqueueAll ps idleEngine).queue.map (fun p => p.1 ++ "\r")
          = ps.map (fun p => p.1 ++ "\r") := by
        simpa [idleEngine] using hobs
      exact hsent
  · intro e m mq i iq h
    have h1 := wf_queueTaskImmediate e m i
    have hp1 := pendingPairs_queueTaskImmediate e m i h
    have hp2 := pendingPairs_queueTask (queueTaskImmediate m i e) mq iq h1
    have h2 := wf_queueTask (queueTaskImmediate m i e) mq iq h1
    obtain ⟨ha, _, _, _⟩ :=
      runAll_spec (pendingPairs (queueTask mq iq (queueTaskImmediate m i e))).length
        (queueTask mq iq (queueTaskImmediate m i e)) h2 le_rfl
    refine ⟨(queueTask mq iq (queueTaskImmediate m i e)).completed
        ++ (e.current.toList).map Prod.snd, e.queue.map Prod.snd, [], ?_⟩
    rw [runToEnd, ha, pendingIds, hp2, hp1]
    simp

/-- C6 witness. -/
theorem C6_fifo_single_in_flight_witness :
    idleEngine.current.toList.length ≤ 1
    ∧ (runToEnd (enqueueAll [("GS 1", 1), ("NOP", 2)] idleEngine)).completed
        = [("GS 1", 1), ("NOP", 2)].map Prod.snd
    ∧ ∃ l1 l2 l3,
        (runToEnd (queueTask "NOP" 2 (queueTaskImmediate "GS 1" 1 idleEngine))).completed
          = l1 ++ 1 :: l2 ++ 2 :: l3 :=
  ⟨C6_fifo_single_in_flight.1 idleEngine,
   (C6_fifo_single_in_flight.2.1 [("GS 1", 1), ("NOP", 2)]).1,
   C6_fifo_single_in_flight.2.2 idleEngine "GS 1" "NOP" 1 2 wf_idle⟩

/-! ## Range coalescing lemmas -/

theorem groupByTKey_cons_shape (t : Int × Int) (ts : List (Int × Int)) :
    ∃ g gs, groupByTKey (t :: ts) = (t :: g) :: gs := by
  cases hg : groupByTKey ts with
  | nil => exact ⟨[], [], by simp [groupByTKey, hg]⟩
  | cons g gs =>
    cases g with
    | nil => exact ⟨[], [] :: gs, by simp [groupByTKey, hg]⟩
    | cons u g2 =>
      by_cases hk : tkey t = tkey u
      · exact ⟨u :: g2, gs, by simp [groupByTKey, hg, hk]⟩
      · exact ⟨[], (u :: g2) :: gs, by simp [groupByTKey, hg, hk]⟩

theorem groupByTKey_cons (t : Int × Int) (ts : List (Int × Int)) :
    groupByTKey (t :: ts) =
      match groupByTKey ts with
      | [] => [[t]]
      | [] :: gs => [t] :: [] :: gs
      | (u :: g) :: gs =>
        if tkey t = tkey u then (t :: u :: g) :: gs else [t] :: (u :: g) :: gs := rfl

theorem pyRanges_enumFrom (l : List Int) : ∀ n : Int,
    pyRanges (enumFrom n l) = runsFromClaim l := by
  induction l with
  | nil => intro n; rfl
  | cons x xs ih =>
    intro n
    cases xs with
    | nil => simp [enumFrom, pyRanges, groupByTKey, rangeOfGroup, runsFromClaim]
    | cons y ys =>
      obtain ⟨g, gs, hg⟩ := groupByTKey_cons_shape ((n + 1 : Int), y) (enumFrom (n + 1 + 1) ys)
      have hih := ih (n + 1)
      have hEnum1 : enumFrom (n + 1) (y :: ys)
          = ((n + 1 : Int), y) :: enumFrom (n + 1 + 1) ys := rfl
      rw [hEnum1] at hih
      have hfirst : pyRanges (((n + 1 : Int), y) :: enumFrom (n + 1 + 1) ys)
          = rangeOfGroup (((n + 1 : Int), y) :: g) :: gs.map rangeOfGroup := by
        simp only [pyRanges, hg, List.map_cons]
      have hro : rangeOfGroup (((n + 1 : Int), y) :: g)
          = (y, ((((n + 1 : Int), y) :: g).getLast?.map Prod.snd).getD 0) := by
        simp [rangeOfGroup]
      have hrs : runsFromClaim (y :: ys)
          = (y, ((((n + 1 : Int), y) :: g).getLast?.map Prod.snd).getD 0)
            :: gs.map rangeOfGroup := by
        rw [← hih, hfirst, hro]
      have hEnum0 : enumFrom n (x :: y :: ys)
          = (n, x) :: ((n + 1 : Int), y) :: enumFrom (n + 1 + 1) ys := rfl
      by_cases hxy : y = x + 1
      · have hk : tkey (n, x) = tkey ((n + 1 : Int), y) := by
          simp only [tkey]
          omega
        have hG : groupByTKey (enumFrom n (x :: y :: ys))
            = ((n, x) :: ((n + 1 : Int), y) :: g) :: gs := by
          rw [hEnum0, groupByTKey_cons, hg]
          simp [hk]
        have hro2 : rangeOfGroup ((n, x) :: ((n + 1 : Int), y) :: g)
            = (x, ((((n + 1 : Int), y) :: g).getLast?.map Prod.snd).getD 0) := by
          simp [rangeOfGroup, List.getLast?_cons_cons]
        rw [pyRanges, hG]
        simp only [List.map_cons, hro2]
        rw [runsFromClaim, hrs]
        simp [hxy]
      · have hk : ¬ tkey (n, x) = tkey ((n + 1 : Int), y) := by
          simp only [tkey]
          omega
        have hG : groupByTKey (enumFrom n (x :: y :: ys))
            = [(n, x)] :: (((n + 1 : Int), y) :: g) :: gs := by
          rw [hEnum0, groupByTKey_cons, hg]
          simp [hk]
        rw [pyRanges, hG]
        simp only [List.map_cons, hro]
        rw [runsFromClaim, hrs]
        simp [hxy, rangeOfGroup]

/-- C7: for every key list, the ranges the source computes with
`itertools.groupby(enumerate(params), key=lambda t: t[1] - t[0])` are
exactly the maximal consecutive-integer runs described by the claim (a run
breaks wherever the next key is not the previous key plus one); the
commands issued are one `PUE` per run, a length-1 run rendered without a
range suffix; and for the key set {3,4,5,9,10,12} the reconciliation
issues exactly `PUE 3 5`, `PUE 9 10`, `PUE 12`. -/
theorem C7_range_coalescing :
    (∀ keys : List Int, rangesOfKeys keys = runsFromClaim keys)
    ∧ (∀ tbl : SubTable, updateSubscriptionsCmds tbl []
        = (rangesOfKeys (sortKeys (tbl.map Prod.fst))).map renderRange)
    ∧ updateSubscriptionsCmds [(3, [0]), (4, [0]), (5, [0]), (9, [0]), (10, [0]), (12, [0])] []
        = ["PUE 3 5", "PUE 9 10", "PUE 12"] := by
  refine ⟨fun keys => pyRanges_enumFrom keys 0, fun tbl => rfl, ?_⟩
  decide

end PySymNet
